import Mathlib

/-!
Verification of the gitset-cli repository against its specification.

The development shallowly embeds the two JavaScript entry points
(the published CLI, called `part_000` here, and the `src/index.js`
variant) as pure Lean functions.  External effects (git subprocess
results, the HTTP response, the credentials file) are passed in as
explicit arguments or explicit state values.
-/

namespace Gitset

/-! ## JavaScript string primitives, modelled on lists of characters -/

/-- Whitespace recognised by the JavaScript `String.prototype.trim`. -/
def isJsSpace (c : Char) : Bool :=
  c = ' ' || c = '\t' || c = '\n' || c = '\r' || c = '\x0b' || c = '\x0c'

/-- Drop trailing characters satisfying `p`. -/
def dropTrail (p : Char → Bool) (l : List Char) : List Char :=
  (l.reverse.dropWhile p).reverse

/-- Characters of a string after JavaScript `trim`. -/
def trimList (l : List Char) : List Char :=
  dropTrail isJsSpace (l.dropWhile isJsSpace)

/-- JavaScript `String.prototype.trim`. -/
def jsTrim (s : String) : String :=
  ⟨trimList s.data⟩

/-- `listStartsWith s pat` is true when `pat` is an initial segment of `s`. -/
def listStartsWith : List Char → List Char → Bool
  | _, [] => true
  | [], _ :: _ => false
  | a :: as, b :: bs => a = b && listStartsWith as bs

/-- Substring containment, as JavaScript `String.prototype.includes`. -/
def hasSubstr (pat : List Char) : List Char → Bool
  | [] => listStartsWith [] pat
  | c :: rest => listStartsWith (c :: rest) pat || hasSubstr pat rest

/-- JavaScript `String.prototype.includes` on strings. -/
def jsIncludes (s pat : String) : Bool :=
  hasSubstr pat.data s.data

/-- JavaScript `String.prototype.replace` with a string pattern replaces only
the first occurrence of the pattern. -/
def replaceFirstList (pat repl : List Char) : List Char → List Char
  | [] => if pat = [] then repl else []
  | c :: rest =>
    if listStartsWith (c :: rest) pat then repl ++ List.drop pat.length (c :: rest)
    else c :: replaceFirstList pat repl rest

/-- JavaScript `String.prototype.replace` with string pattern and replacement. -/
def jsReplaceFirst (s pat repl : String) : String :=
  ⟨replaceFirstList pat.data repl.data s.data⟩

/-- JavaScript `String.prototype.split` with a single-character separator. -/
def splitChar (sep : Char) : List Char → List (List Char)
  | [] => [[]]
  | c :: rest =>
    let r := splitChar sep rest
    if c = sep then [] :: r
    else
      match r with
      | [] => [[c]]
      | h :: t => (c :: h) :: t

/-- JavaScript `Array.prototype.join` with a single-character separator. -/
def joinWithChar (sep : Char) : List (List Char) → List Char
  | [] => []
  | [x] => x
  | x :: y :: t => x ++ sep :: joinWithChar sep (y :: t)

/-- JavaScript `String.prototype.toLowerCase` (ASCII, which covers the
extensions compared in the source). -/
def jsToLower (s : String) : String :=
  ⟨s.data.map Char.toLower⟩

/-! ## Git inspector data -/

/-- One line of `git diff --cached --name-status`, already split into the
status code and the (tab-rejoined) file path. -/
structure StagedFile where
  status : String
  file : String
deriving DecidableEq

/-- Parse one staged-file line: `const [status, ...fileParts] = line.split('\t');
const file = fileParts.join('\t');`. -/
def parseStatusLine (line : String) : StagedFile :=
  let parts := splitChar '\t' line.data
  { status := ⟨parts.headD []⟩, file := ⟨joinWithChar '\t' parts.tail⟩ }

/-! ## Change filter -/

/-- The fixed ignore list `IGNORED_FILES` of the source. -/
def IGNORED_FILES : List String :=
  ["package-lock.json", "yarn.lock", "pnpm-lock.yaml", ".env", "venv",
   "node_modules", ".DS_Store", "dist", "build", "__pycache__",
   ".pytest_cache", "coverage"]

/-- The source's `shouldIgnoreFile`: inside the `.some` callback, only the
equality and the `startsWith(ignored + '/')` tests depend on the list entry;
the three `includes` tests are fixed directory-segment checks. -/
def shouldIgnoreFile (filePath : String) : Bool :=
  IGNORED_FILES.any fun ignored =>
    filePath = ignored ||
    listStartsWith filePath.data (ignored ++ "/").data ||
    jsIncludes filePath "/node_modules/" ||
    jsIncludes filePath "/__pycache__/" ||
    jsIncludes filePath "/venv/"

/-- Modelled from the spec (for comparison only): the spec describes
`isIgnored(path)` as true exactly when the path equals an ignore-list entry,
is nested under one, or contains one as a path segment. -/
def specIsIgnored (filePath : String) : Bool :=
  IGNORED_FILES.any fun ignored =>
    filePath = ignored ||
    listStartsWith filePath.data (ignored ++ "/").data ||
    (splitChar '/' filePath.data).contains ignored.data

/-- The source's `getStagedFiles`, as a function of the stdout of
`git diff --cached --name-status`: split into lines, drop empty lines,
parse, and drop ignored paths. -/
def getStagedFiles (stdout : String) : List StagedFile :=
  ((((splitChar '\n' stdout.data).filter fun l => !l.isEmpty).map
      fun l => parseStatusLine ⟨l⟩).filter
    fun sf => !shouldIgnoreFile sf.file)

/-! ## Payload assembly -/

/-- `path.basename` for the slash-free-or-slash-separated repository-relative
paths git emits (no trailing separator): the last `/`-separated component. -/
def basename (p : String) : String :=
  ⟨(splitChar '/' p.data).foldl (fun _ x => x) []⟩

/-- Suffix of a character list starting at its last `.`, when one exists. -/
def lastDotSuffix : List Char → Option (List Char)
  | [] => none
  | c :: rest =>
    match lastDotSuffix rest with
    | some s => some s
    | none => if c = '.' then some (c :: rest) else none

/-- `path.extname`: the part of the basename from its last `.`; a dot that
begins the basename (dotfile) yields no extension. -/
def extname (p : String) : String :=
  match (basename p).data with
  | [] => ""
  | _ :: rest =>
    match lastDotSuffix rest with
    | some s => ⟨s⟩
    | none => ""

/-- The ternary chain `status === 'A' ? 'added' : status === 'M' ? 'modified'
: 'deleted'` shared by both variants. -/
def changeTypeOf (status : String) : String :=
  if status = "A" then "added" else if status = "M" then "modified" else "deleted"

/-- The `changes: { before, after }` object of a FileChange. -/
structure ChangeContents where
  before : String
  after : String
deriving DecidableEq

/-- One element of the outbound `file_changes` array. -/
structure FileChange where
  name : String
  path : String
  changeType : String
  contentType : String
  changes : ChangeContents
deriving DecidableEq

/-- The `git show` results backing one file's diff: the stdout of
`git rev-parse HEAD`, of `git show <commit>:<file>`, and of
`git show :<file>`; `none` means the command failed. -/
def getGitDiff (revParse showPrev showCurr : Option String) :
    Option (String × String) :=
  match revParse with
  | none => none
  | some _ =>
    let previousContent := showPrev.getD ""
    match showCurr with
    | none => none
    | some current => some (previousContent, current)

/-- The published CLI's payload loop (part_000 `generateCommitMessage`):
for each staged file take its diff, skip the file when the diff is the
failure sentinel, and otherwise emit a FileChange with `contentType` fixed
to `text`.  The per-file diff environment is the function `diff`. -/
def buildFileChanges (diff : String → Option (String × String))
    (files : List StagedFile) : List FileChange :=
  files.filterMap fun sf =>
    (diff sf.file).map fun pc =>
      { name := basename sf.file
        path := sf.file
        changeType := changeTypeOf sf.status
        contentType := "text"
        changes := { before := pc.1, after := pc.2 } }

/-- Extensions the `src/index.js` variant treats as binary. -/
def BINARY_EXTENSIONS : List String := [".jpg", ".png", ".gif", ".pdf"]

/-- The `src/index.js` payload loop: identical to `buildFileChanges` except
that `contentType` is inferred from the lower-cased extension. -/
def idxFileChanges (diff : String → Option (String × String))
    (files : List StagedFile) : List FileChange :=
  files.filterMap fun sf =>
    (diff sf.file).map fun pc =>
      { name := basename sf.file
        path := sf.file
        changeType := changeTypeOf sf.status
        contentType :=
          if BINARY_EXTENSIONS.contains (jsToLower (extname sf.file))
          then "binary" else "text"
        changes := { before := pc.1, after := pc.2 } }

/-- The source's `getRepoInfo`, as a function of the stdout of
`git config --get remote.origin.url` (`none` when the command failed):
trim, then three first-occurrence string replacements. -/
def getRepoInfo (remoteUrl : Option String) : String :=
  match remoteUrl with
  | none => ""
  | some u =>
    jsReplaceFirst
      (jsReplaceFirst (jsReplaceFirst (jsTrim u) "git@github.com:" "")
        "https://github.com/" "")
      ".git" ""

/-! ## Credential store -/

/-- The process environment consulted by `CONFIG_LOCATIONS`. -/
structure NodeEnv where
  cwd : String
  homedir : String
  platform : String
  appdata : Option String
deriving DecidableEq

/-- `path.join` for the well-formed absolute segments used here. -/
def pathJoin (a b : String) : String := a ++ "/" ++ b

/-- `CONFIG_LOCATIONS.local.dir` joined with the file name. -/
def localConfigPath (env : NodeEnv) : String :=
  pathJoin (pathJoin env.cwd ".gitset") "credentials.json"

/-- `CONFIG_LOCATIONS.global.dir` joined with the file name. -/
def globalConfigPath (env : NodeEnv) : String :=
  pathJoin (pathJoin (pathJoin env.homedir ".config") "gitset") "credentials.json"

/-- `CONFIG_LOCATIONS.system[process.platform] || CONFIG_LOCATIONS.system.linux`. -/
def systemConfigDir (env : NodeEnv) : String :=
  if env.platform = "darwin" then
    env.homedir ++ "/Library/Application Support/GitSet"
  else if env.platform = "win32" then
    (env.appdata.getD "") ++ "/GitSet"
  else
    env.homedir ++ "/.local/share/gitset"

/-- The member access `fs.existsSync` where `fs` is the module the source
imports.  The source imports `fs` from `fs/promises`, and that module
exports no `existsSync`, so the member is `undefined`: the value is `none`. -/
def fsPromisesExistsSync : Option (String → Bool) := none

/-- Models `try { if (fs.existsSync(p)) ... } catch (error) {}` around one
existence probe: when the member is a real function it is consulted; when it
is `undefined`, calling it throws a TypeError which the empty catch swallows,
so the probe behaves as false. -/
def checkExistsSwallow (existsSync : Option (String → Bool)) (p : String) : Bool :=
  match existsSync with
  | some f => f p
  | none => false

/-- The source's `getConfigPath`, parameterised by the `existsSync` member
actually available on the imported module. -/
def getConfigPath (existsSync : Option (String → Bool)) (env : NodeEnv) : String :=
  if checkExistsSwallow existsSync (localConfigPath env) then localConfigPath env
  else if checkExistsSwallow existsSync (globalConfigPath env) then globalConfigPath env
  else pathJoin (systemConfigDir env) "credentials.json"

/-- The persisted credential record.  `extra` stands for any further JSON
fields of the stored object, which object spread preserves. -/
structure StoredConfig where
  licenseKey : Option String := none
  lastValidation : Option String := none
  installationId : Option String := none
  subscriptionData : Option String := none
  extra : List (String × String) := []
deriving DecidableEq

/-- State of the credentials file at the resolved path: absent (`ENOENT`),
present but failing to read or parse, or readable with a parsed record. -/
inductive CredFile where
  | missing
  | unreadable
  | readable (c : StoredConfig)
deriving DecidableEq

/-- The `storedConfig` literal built on first run, with the freshly
generated `crypto.randomUUID()` filled in. -/
def newStoredConfig (fresh : String) : StoredConfig :=
  { licenseKey := none, lastValidation := none, installationId := some fresh }

/-- The source's `loadConfig` as a state transformer on the credentials
file.  `fresh` is the value `crypto.randomUUID()` would produce if called.
Returns the loaded record and the resulting file state, or an error when
the read fails for any reason other than `ENOENT`. -/
def loadConfig (fresh : String) : CredFile → Except Unit (StoredConfig × CredFile)
  | .missing =>
    let c := newStoredConfig fresh
    .ok (c, .readable c)
  | .unreadable => .error ()
  | .readable c =>
    match c.installationId with
    | none =>
      let c2 := { c with installationId := some fresh }
      .ok (c2, .readable c2)
    | some _ => .ok (c, .readable c)

/-! ## API client -/

/-- The HTTP response as the client inspects it: numeric status plus the
`status`, `message`, `next_reset_date` and `days_until_reset` fields of the
parsed JSON body (absent fields are `none`). -/
structure ApiResponse where
  status : Nat
  bodyStatus : Option String := none
  bodyMessage : Option String := none
  nextResetDate : Option String := none
  daysUntilReset : Option Nat := none
deriving DecidableEq

/-- `response.ok` of fetch: status in the 2xx range. -/
def responseOk (r : ApiResponse) : Bool :=
  200 ≤ r.status && r.status ≤ 299

/-- The messages `makeApiRequest` logs on the quota path, with the
locale-dependent date rendering abstracted as `renderDate`. -/
def quotaNoticeLines (renderDate : String → String) (r : ApiResponse) :
    List String :=
  ["Monthly request limit reached:",
   (r.bodyMessage.getD ""),
   "Next reset date: " ++ renderDate (r.nextResetDate.getD ""),
   "Remaining days: " ++ toString (r.daysUntilReset.getD 0),
   "To remove limits, activate a pro license:",
   "  gitset activate <license-key>",
   "Visit https://gitset.dev/pricing to get a license"]

/-- How a call to `makeApiRequest` ends, seen from the process: the parsed
success body, immediate process termination after printing the given lines
(no further statement of the program runs), or a thrown error delivered to
the caller. -/
inductive ApiOutcome where
  | success
  | exitProcess (printed : List String) (code : Nat)
  | thrown (msg : String)
deriving DecidableEq

/-- The response handling of the source's `makeApiRequest`: 2xx parses and
returns; HTTP 429 with a `quota_exceeded` body prints the quota notice and
terminates the process with exit code 1; every other non-2xx response throws
`errorData.message || 'Failed to make request'`. -/
def makeApiRequest (renderDate : String → String) (resp : ApiResponse) :
    ApiOutcome :=
  if responseOk resp then .success
  else if resp.status = 429 && resp.bodyStatus = some "quota_exceeded" then
    .exitProcess (quotaNoticeLines renderDate resp) 1
  else
    .thrown (resp.bodyMessage.getD "Failed to make request")

/-! ## Command surface: exit codes

Each command action is modelled as a function from the outcomes of its
awaited calls to the process exit code.  `ApiCall α` is how an awaited
`makeApiRequest` looks to the caller: a parsed value, the process already
terminated on the quota path, or a thrown error. -/

/-- Result of an awaited API call as its caller observes it. -/
inductive ApiCall (α : Type) where
  | ok (v : α)
  | quotaExit
  | err (msg : String)

/-- The `data` object of a `/validate-license` response. -/
structure LicenseData where
  productName : String
  licStatus : String
  renewsAt : Option String
deriving DecidableEq

/-- The body of a `/usage-info` response. -/
structure UsageData where
  currentUsage : Nat
  limit : Nat
  nextResetDate : String
deriving DecidableEq

/-- Exit code of the part_000 `suggest` action (`generateCommitMessage`):
an empty staged list returns early (normal exit 0); a quota termination or
a caught error exits 1; success exits 0. -/
def suggestExitCode (staged : List StagedFile) (api : ApiCall String) : Nat :=
  if staged.isEmpty then 0
  else
    match api with
    | .ok _ => 0
    | .quotaExit => 1
    | .err _ => 1

/-- Exit code of the `status` action.  Its catch block logs the error and
falls through without calling `process.exit(1)`, so a caught error ends the
process with code 0; only the quota path inside `makeApiRequest` exits 1.
The `/usage-info` follow-up call happens only when the validated plan name
does not contain `pro` (lower-cased). -/
def statusExitCode (load : Except Unit StoredConfig)
    (validate : ApiCall LicenseData) (usage : ApiCall UsageData) : Nat :=
  match load with
  | .error _ => 0
  | .ok config =>
    match config.licenseKey with
    | none => 0
    | some _ =>
      match validate with
      | .quotaExit => 1
      | .err _ => 0
      | .ok d =>
        if !jsIncludes (jsToLower d.productName) "pro" then
          match usage with
          | .quotaExit => 1
          | .err _ => 0
          | .ok _ => 0
        else 0

/-- Exit code of the `activate` action.  With no key argument it loads the
record and either displays the stored license (validating it remotely) or
prints free-tier guidance, returning 0; with a key argument it validates
first, then loads and saves the activated record.  Every caught error
(load, validation, save) exits 1; the quota path inside the API client
exits 1. -/
def activateExitCode (licenseKeyArg : Option String)
    (load : Except Unit StoredConfig) (validate : ApiCall LicenseData)
    (save : Except Unit Unit) : Nat :=
  match licenseKeyArg with
  | none =>
    match load with
    | .error _ => 1
    | .ok config =>
      match config.licenseKey with
      | some _ =>
        match validate with
        | .quotaExit => 1
        | .err _ => 1
        | .ok _ => 0
      | none => 0
  | some _ =>
    match validate with
    | .quotaExit => 1
    | .err _ => 1
    | .ok _ =>
      match load with
      | .error _ => 1
      | .ok _ =>
        match save with
        | .error _ => 1
        | .ok _ => 0

/-- Exit code of the `deactivate` action: caught errors (from load or save)
exit 1; no stored key is an informational no-op returning 0; a successful
clear returns 0. -/
def deactivateExitCode (load : Except Unit StoredConfig)
    (save : Except Unit Unit) : Nat :=
  match load with
  | .error _ => 1
  | .ok config =>
    match config.licenseKey with
    | none => 0
    | some _ =>
      match save with
      | .error _ => 1
      | .ok _ => 0

/-- The record `deactivate` persists: the loaded record with the three
license fields nulled by object spread, everything else carried over. -/
def deactivateFinalConfig (c : StoredConfig) : StoredConfig :=
  { c with licenseKey := none, lastValidation := none, subscriptionData := none }

/-- The `deactivate` action as a transformer of the credentials file:
load (propagating its error), return the file unchanged when no license key
is stored, otherwise save the cleared record. -/
def deactivateRun (fresh : String) (file : CredFile) : Except Unit CredFile :=
  match loadConfig fresh file with
  | .error e => .error e
  | .ok (c, file2) =>
    match c.licenseKey with
    | none => .ok file2
    | some _ => .ok (.readable (deactivateFinalConfig c))

/-! ## The `src/index.js` variant: filesystem and network effects -/

/-- The assembled request document of the `src/index.js` variant. -/
structure Payload where
  repoName : String
  fileChanges : List FileChange
deriving DecidableEq

/-- Externally visible effects of the `src/index.js` generation command. -/
inductive Effect where
  | writeFile (name : String) (payload : Payload)
  | httpPost (url : String) (payload : Payload)
deriving DecidableEq

/-- The generation endpoint URL of the `src/index.js` variant. -/
def IDX_API_URL : String :=
  "https://gitset-commit-messages.vercel.app/generate-commit-message"

/-- Effect trace of a run of the `src/index.js` generation command that
reaches the network: with no staged files the command returns before any
effect; otherwise it writes `debug-payload.json` with the full payload and
then posts the same payload. -/
def idxSuggestTrace (diff : String → Option (String × String))
    (remoteUrl : Option String) (stdout : String) : List Effect :=
  let files := getStagedFiles stdout
  if files.isEmpty then []
  else
    let payload : Payload :=
      { repoName := getRepoInfo remoteUrl
        fileChanges := idxFileChanges diff files }
    [.writeFile "debug-payload.json" payload, .httpPost IDX_API_URL payload]

/-! ## Claim C1: change-type classification -/

/-- Claim C1 counterexample: a staged entry whose status code is `R`
(rename) yields `changeType = "deleted"`; the code maps every status other
than `A` and `M` to `deleted`, so unrecognised codes do not pass through
unchanged as the claim states. -/
theorem C1_changeType_counterexample :
    (buildFileChanges (fun _ => some ("", "")) [{ status := "R", file := "f.txt" }]).map
        FileChange.changeType = ["deleted"] ∧ ("deleted" : String) ≠ "R" := by
  constructor
  · rfl
  · decide

/-- Claim C1 (amended): the `changeType` of every assembled FileChange is
the image of the originating status code under the total map `A → added`,
`M → modified`, and every other code `→ deleted`. -/
theorem C1_changeType_amended (diff : String → Option (String × String))
    (files : List StagedFile) (fc : FileChange)
    (hmem : fc ∈ buildFileChanges diff files) :
    (∃ sf ∈ files, fc.changeType = changeTypeOf sf.status) ∧
    changeTypeOf "A" = "added" ∧ changeTypeOf "M" = "modified" ∧
    ∀ s : String, s ≠ "A" → s ≠ "M" → changeTypeOf s = "deleted" := by
  refine ⟨?_, rfl, rfl, ?_⟩
  · rcases List.mem_filterMap.mp hmem with ⟨sf, hsf, hmap⟩
    rcases Option.map_eq_some'.mp hmap with ⟨pc, hd, hfc⟩
    exact ⟨sf, hsf, by rw [← hfc]⟩
  · intro s h1 h2
    simp [changeTypeOf, h1, h2]

/-- Witness for C1: instantiation on a one-element staged list with status
code `A`. -/
theorem C1_changeType_amended_witness :
    (∃ sf ∈ [({ status := "A", file := "a.ts" } : StagedFile)],
      ({ name := "a.ts", path := "a.ts", changeType := "added",
         contentType := "text",
         changes := { before := "", after := "x" } } : FileChange).changeType =
        changeTypeOf sf.status) ∧
    changeTypeOf "A" = "added" ∧ changeTypeOf "M" = "modified" ∧
    ∀ s : String, s ≠ "A" → s ≠ "M" → changeTypeOf s = "deleted" :=
  C1_changeType_amended (fun _ => some ("", "x"))
    [{ status := "A", file := "a.ts" }] _ (by decide)

/-! ## Claim C3: the ignore policy -/

/-- Claim C3 counterexample: `x/package-lock.json` contains the ignore-list
entry `package-lock.json` as a path segment, so the claimed characterisation
marks it ignored, yet the code does not: segment containment is only tested
for the three hard-wired directory patterns. -/
theorem C3_ignore_counterexample :
    shouldIgnoreFile "x/package-lock.json" = false ∧
    specIsIgnored "x/package-lock.json" = true ∧
    "package-lock.json" ∈ IGNORED_FILES := by
  refine ⟨by decide, by decide, by decide⟩

/-- Claim C3 (amended): ignored paths never reach `file_changes`, and
`shouldIgnoreFile` holds exactly when the path equals an ignore-list entry,
lies under one as a path prefix, or contains `/node_modules/`,
`/__pycache__/` or `/venv/` as a substring — segment containment applies
only to those three directory entries. -/
theorem C3_ignore_amended :
    (∀ (stdout : String) (diff : String → Option (String × String))
        (fc : FileChange), fc ∈ buildFileChanges diff (getStagedFiles stdout) →
        shouldIgnoreFile fc.path = false) ∧
    (∀ p : String, shouldIgnoreFile p = true ↔
      ((∃ e ∈ IGNORED_FILES, p = e ∨ listStartsWith p.data (e ++ "/").data = true) ∨
       jsIncludes p "/node_modules/" = true ∨
       jsIncludes p "/__pycache__/" = true ∨
       jsIncludes p "/venv/" = true)) := by
  constructor
  · intro stdout diff fc hmem
    rcases List.mem_filterMap.mp hmem with ⟨sf, hsf, hmap⟩
    rcases Option.map_eq_some'.mp hmap with ⟨pc, hd, hfc⟩
    have hpath : fc.path = sf.file := by rw [← hfc]
    have hkeep := (List.mem_filter.mp hsf).2
    rw [hpath]
    simpa using hkeep
  · intro p
    unfold shouldIgnoreFile
    rw [List.any_eq_true]
    constructor
    · rintro ⟨e, he, hval⟩
      simp only [Bool.or_eq_true, decide_eq_true_eq] at hval
      rcases hval with ((((h1 | h2) | h3) | h4) | h5)
      · exact Or.inl ⟨e, he, Or.inl h1⟩
      · exact Or.inl ⟨e, he, Or.inr h2⟩
      · exact Or.inr (Or.inl h3)
      · exact Or.inr (Or.inr (Or.inl h4))
      · exact Or.inr (Or.inr (Or.inr h5))
    · rintro (⟨e, he, h | h⟩ | h | h | h)
      · refine ⟨e, he, ?_⟩
        simp only [Bool.or_eq_true, decide_eq_true_eq]
        exact Or.inl (Or.inl (Or.inl (Or.inl h)))
      · refine ⟨e, he, ?_⟩
        simp only [Bool.or_eq_true, decide_eq_true_eq]
        exact Or.inl (Or.inl (Or.inl (Or.inr h)))
      · refine ⟨"package-lock.json", by decide, ?_⟩
        simp only [Bool.or_eq_true, decide_eq_true_eq]
        exact Or.inl (Or.inl (Or.inr h))
      · refine ⟨"package-lock.json", by decide, ?_⟩
        simp only [Bool.or_eq_true, decide_eq_true_eq]
        exact Or.inl (Or.inr h)
      · refine ⟨"package-lock.json", by decide, ?_⟩
        simp only [Bool.or_eq_true, decide_eq_true_eq]
        exact Or.inr h

/-- Witness for C3: the spec's own example listing, `package-lock.json`
staged next to `src/app.ts`; the surviving FileChange's path is not
ignored. -/
theorem C3_ignore_amended_witness :
    shouldIgnoreFile "src/app.ts" = false := by
  have h := C3_ignore_amended.1 "A\tsrc/app.ts\nM\tpackage-lock.json"
    (fun _ => some ("", ""))
    { name := "app.ts", path := "src/app.ts", changeType := "added",
      contentType := "text", changes := { before := "", after := "" } }
    (by decide)
  exact h

/-! ## Claim C4: quota short-circuit versus thrown errors -/

/-- Claim C4: a 429 response with a `quota_exceeded` body makes the client
print the quota notice (message, reset date, remaining days, upgrade
instructions) and terminate the process with exit code 1 — the terminal
`exitProcess` outcome, after which no further request is issued — while
every other non-2xx response is thrown to the caller instead. -/
theorem C4_quota_short_circuit (renderDate : String → String)
    (resp : ApiResponse) (hnot : responseOk resp = false) :
    (resp.status = 429 ∧ resp.bodyStatus = some "quota_exceeded" →
      makeApiRequest renderDate resp =
        .exitProcess (quotaNoticeLines renderDate resp) 1 ∧
      ("Next reset date: " ++ renderDate (resp.nextResetDate.getD "")) ∈
        quotaNoticeLines renderDate resp ∧
      ("Remaining days: " ++ toString (resp.daysUntilReset.getD 0)) ∈
        quotaNoticeLines renderDate resp ∧
      (1 : Nat) ≠ 0) ∧
    (¬(resp.status = 429 ∧ resp.bodyStatus = some "quota_exceeded") →
      makeApiRequest renderDate resp =
        .thrown (resp.bodyMessage.getD "Failed to make request")) := by
  constructor
  · rintro ⟨h1, h2⟩
    refine ⟨by simp [makeApiRequest, hnot, h1, h2], ?_, ?_, by decide⟩
    · simp [quotaNoticeLines]
    · simp [quotaNoticeLines]
  · intro hn
    have hcond : (decide (resp.status = 429) &&
        decide (resp.bodyStatus = some "quota_exceeded")) = false := by
      rcases not_and_or.mp hn with h | h <;> simp [h]
    simp [makeApiRequest, hnot, hcond]

/-- Witness for C4: the spec's concrete quota response, rendered with the
identity date renderer. -/
theorem C4_quota_short_circuit_witness :
    makeApiRequest (fun s => s)
      { status := 429, bodyStatus := some "quota_exceeded",
        bodyMessage := some "Monthly limit reached",
        nextResetDate := some "2025-01-01", daysUntilReset := some 5 } =
      .exitProcess
        (quotaNoticeLines (fun s => s)
          { status := 429, bodyStatus := some "quota_exceeded",
            bodyMessage := some "Monthly limit reached",
            nextResetDate := some "2025-01-01", daysUntilReset := some 5 }) 1 :=
  ((C4_quota_short_circuit (fun s => s) _ (by decide)).1 ⟨rfl, rfl⟩).1

/-! ## Claim C5: installation-id lifecycle in loadConfig -/

/-- Claim C5 counterexample: on an unreadable credentials file `loadConfig`
propagates the error instead of creating a fresh record, contradicting the
claimed "if the record is missing or unreadable a new one is created". -/
theorem C5_load_counterexample :
    loadConfig "fresh-uuid" CredFile.unreadable = .error () ∧
    (Except.error () : Except Unit (StoredConfig × CredFile)) ≠
      .ok (newStoredConfig "fresh-uuid",
           .readable (newStoredConfig "fresh-uuid")) := by
  exact ⟨rfl, by simp⟩

/-- Claim C5 (amended): a missing file yields a fresh persisted record with
the new installation id and no license key, and a second load returns the
same record; with a readable record the installation id is never
regenerated (it is backfilled only when the field is missing); an
unreadable record propagates an error instead of being recreated. -/
theorem C5_load_amended :
    (∀ fresh : String, ∃ c : StoredConfig, ∃ f2 : CredFile,
      loadConfig fresh .missing = .ok (c, f2) ∧
      c.installationId = some fresh ∧ c.licenseKey = none ∧
      ∀ fresh2 : String, loadConfig fresh2 f2 = .ok (c, f2)) ∧
    (∀ (fresh i : String) (c : StoredConfig), c.installationId = some i →
      loadConfig fresh (.readable c) = .ok (c, .readable c)) ∧
    (∀ (fresh : String) (c : StoredConfig), c.installationId = none →
      loadConfig fresh (.readable c) =
        .ok ({ c with installationId := some fresh },
             .readable { c with installationId := some fresh })) ∧
    (∀ fresh : String, loadConfig fresh .unreadable = .error ()) := by
  refine ⟨?_, ?_, ?_, fun _ => rfl⟩
  · intro fresh
    exact ⟨newStoredConfig fresh, .readable (newStoredConfig fresh), rfl, rfl,
      rfl, fun fresh2 => rfl⟩
  · intro fresh i c hc
    simp [loadConfig, hc]
  · intro fresh c hc
    simp [loadConfig, hc]

/-- Witness for C5: a readable record with an installation id already
present is returned unchanged. -/
theorem C5_load_amended_witness :
    loadConfig "fresh-2"
      (.readable { licenseKey := some "KEY", installationId := some "id-1" }) =
      .ok ({ licenseKey := some "KEY", installationId := some "id-1" },
           .readable { licenseKey := some "KEY", installationId := some "id-1" }) :=
  C5_load_amended.2.1 "fresh-2" "id-1"
    { licenseKey := some "KEY", installationId := some "id-1" } rfl

/-! ## Claim C6: diff retrieval failure handling -/

/-- Claim C6 counterexample: with the previous-content lookup succeeding and
only the current-content lookup failing, `getGitDiff` still returns the
failure sentinel, so the sentinel is not restricted to the case where both
lookups fail. -/
theorem C6_getGitDiff_counterexample :
    getGitDiff (some "abc123") (some "old content") none = none ∧
    (some "old content" : Option String) ≠ none := by
  exact ⟨rfl, by simp⟩

/-- Claim C6 (amended): `getGitDiff` returns the sentinel exactly when the
commit-hash resolution or the current-content (index) lookup fails; a
failing previous-content lookup alone is treated as empty previous content,
and a successful current lookup (with the hash resolved) yields the
(previous, current) pair. -/
theorem C6_getGitDiff_amended (revParse showPrev showCurr : Option String) :
    (getGitDiff revParse showPrev showCurr = none ↔
      revParse = none ∨ showCurr = none) ∧
    (∀ h c : String, revParse = some h → showCurr = some c →
      getGitDiff revParse showPrev showCurr = some (showPrev.getD "", c)) ∧
    (∀ h c : String, revParse = some h → showCurr = some c →
      showPrev = none →
      getGitDiff revParse showPrev showCurr = some ("", c)) := by
  refine ⟨?_, ?_, ?_⟩
  · cases revParse <;> cases showCurr <;> simp [getGitDiff]
  · intro h c h1 h2
    subst h1; subst h2
    rfl
  · intro h c h1 h2 h3
    subst h1; subst h2; subst h3
    rfl

/-- Witness for C6: a newly added file (previous lookup fails, current
succeeds) produces the pair with empty previous content. -/
theorem C6_getGitDiff_amended_witness :
    getGitDiff (some "abc123") none (some "new body") =
      some ("", "new body") :=
  (C6_getGitDiff_amended (some "abc123") none (some "new body")).2.2
    "abc123" "new body" rfl rfl rfl

/-! ## Claim C8: deactivate clears only the license fields -/

/-- Claim C8: on every stored record holding a license key, `deactivate`
persists a record with `licenseKey`, `lastValidation` and
`subscriptionData` nulled while the installation id (whenever present
before the run) and every other stored field are unchanged. -/
theorem C8_deactivate_frame (fresh k : String) (c : StoredConfig)
    (hk : c.licenseKey = some k) :
    ∃ c2 : StoredConfig,
      deactivateRun fresh (.readable c) = .ok (.readable c2) ∧
      c2.licenseKey = none ∧ c2.lastValidation = none ∧
      c2.subscriptionData = none ∧ c2.extra = c.extra ∧
      ∀ i, c.installationId = some i → c2.installationId = some i := by
  cases hi : c.installationId with
  | some i =>
    refine ⟨deactivateFinalConfig c, ?_, rfl, rfl, rfl, rfl, ?_⟩
    · simp [deactivateRun, loadConfig, hi, hk]
    · intro j hj
      show c.installationId = some j
      rw [hi]
      exact hj
  | none =>
    refine ⟨deactivateFinalConfig { c with installationId := some fresh },
      ?_, rfl, rfl, rfl, rfl, ?_⟩
    · simp [deactivateRun, loadConfig, hi, hk]
    · intro j hj
      exact absurd hj (by simp)

/-- Witness for C8: a concrete activated record. -/
theorem C8_deactivate_frame_witness :
    ∃ c2 : StoredConfig,
      deactivateRun "fresh-3"
        (.readable { licenseKey := some "KEY",
                     lastValidation := some "2024-01-01",
                     installationId := some "id-7",
                     subscriptionData := some "sub",
                     extra := [("note", "kept")] }) = .ok (.readable c2) ∧
      c2.licenseKey = none ∧ c2.lastValidation = none ∧
      c2.subscriptionData = none ∧
      c2.extra = ({ licenseKey := some "KEY",
                    lastValidation := some "2024-01-01",
                    installationId := some "id-7",
                    subscriptionData := some "sub",
                    extra := [("note", "kept")] } : StoredConfig).extra ∧
      ∀ i, ({ licenseKey := some "KEY", lastValidation := some "2024-01-01",
              installationId := some "id-7", subscriptionData := some "sub",
              extra := [("note", "kept")] } : StoredConfig).installationId =
          some i → c2.installationId = some i :=
  C8_deactivate_frame "fresh-3" "KEY"
    { licenseKey := some "KEY", lastValidation := some "2024-01-01",
      installationId := some "id-7", subscriptionData := some "sub",
      extra := [("note", "kept")] } rfl

/-! ## Claim C9: exit codes of the commands -/

/-- Claim C9 counterexample: an error caught inside the `status` command
(a failing license validation) ends the process with exit code 0, not the
non-zero code the claim requires for every caught error. -/
theorem C9_exit_code_counterexample :
    statusExitCode
      (.ok { licenseKey := some "KEY", installationId := some "id-1" })
      (.err "License validation failed")
      (.ok { currentUsage := 0, limit := 10, nextResetDate := "2025-01-01" }) = 0 :=
  rfl

/-- Claim C9 (amended): every command exits 0 on success and on its
informational no-ops (nothing staged, no stored key) and exits 1 on quota
termination; caught errors exit 1 in the generation, activate and
deactivate commands — but the status command ends with exit code 0 on
every caught error (its catch block does not exit), terminating non-zero
only on the quota path of either of its API calls. -/
theorem C9_exit_codes_amended :
    (∀ api : ApiCall String, suggestExitCode [] api = 0) ∧
    (∀ (staged : List StagedFile) (msg : String), staged ≠ [] →
      suggestExitCode staged (.ok msg) = 0 ∧
      suggestExitCode staged (.err msg) = 1 ∧
      suggestExitCode staged .quotaExit = 1) ∧
    (∀ (k msg : String) (c : StoredConfig) (d : LicenseData)
        (load : Except Unit StoredConfig) (validate : ApiCall LicenseData)
        (save : Except Unit Unit),
      activateExitCode none (.error ()) validate save = 1 ∧
      (c.licenseKey = none → activateExitCode none (.ok c) validate save = 0) ∧
      (c.licenseKey = some k →
        activateExitCode none (.ok c) (.err msg) save = 1 ∧
        activateExitCode none (.ok c) .quotaExit save = 1 ∧
        activateExitCode none (.ok c) (.ok d) save = 0) ∧
      activateExitCode (some k) load (.err msg) save = 1 ∧
      activateExitCode (some k) load .quotaExit save = 1 ∧
      activateExitCode (some k) (.error ()) (.ok d) save = 1 ∧
      activateExitCode (some k) (.ok c) (.ok d) (.error ()) = 1 ∧
      activateExitCode (some k) (.ok c) (.ok d) (.ok ()) = 0) ∧
    (∀ (c : StoredConfig) (k : String) (save : Except Unit Unit),
      deactivateExitCode (.error ()) save = 1 ∧
      (c.licenseKey = none → deactivateExitCode (.ok c) save = 0) ∧
      (c.licenseKey = some k →
        deactivateExitCode (.ok c) (.error ()) = 1 ∧
        deactivateExitCode (.ok c) (.ok ()) = 0)) ∧
    (∀ (c : StoredConfig) (k msg : String) (d : LicenseData)
        (validate : ApiCall LicenseData) (usage : ApiCall UsageData)
        (u : UsageData),
      statusExitCode (.error ()) validate usage = 0 ∧
      (c.licenseKey = none → statusExitCode (.ok c) validate usage = 0) ∧
      (c.licenseKey = some k →
        statusExitCode (.ok c) (.err msg) usage = 0 ∧
        statusExitCode (.ok c) .quotaExit usage = 1 ∧
        (jsIncludes (jsToLower d.productName) "pro" = true →
          statusExitCode (.ok c) (.ok d) usage = 0) ∧
        (jsIncludes (jsToLower d.productName) "pro" = false →
          statusExitCode (.ok c) (.ok d) (.ok u) = 0 ∧
          statusExitCode (.ok c) (.ok d) (.err msg) = 0 ∧
          statusExitCode (.ok c) (.ok d) .quotaExit = 1))) := by
  refine ⟨fun api => rfl, ?_, ?_, ?_, ?_⟩
  · intro staged msg hne
    have hemp : staged.isEmpty = false := by
      cases staged with
      | nil => exact absurd rfl hne
      | cons a t => rfl
    exact ⟨by simp [suggestExitCode, hemp], by simp [suggestExitCode, hemp],
      by simp [suggestExitCode, hemp]⟩
  · intro k msg c d load validate save
    refine ⟨rfl, ?_, ?_, rfl, rfl, rfl, rfl, rfl⟩
    · intro h
      simp [activateExitCode, h]
    · intro h
      exact ⟨by simp [activateExitCode, h], by simp [activateExitCode, h],
        by simp [activateExitCode, h]⟩
  · intro c k save
    refine ⟨rfl, ?_, ?_⟩
    · intro h
      simp [deactivateExitCode, h]
    · intro h
      exact ⟨by simp [deactivateExitCode, h], by simp [deactivateExitCode, h]⟩
  · intro c k msg d validate usage u
    refine ⟨rfl, ?_, ?_⟩
    · intro h
      simp [statusExitCode, h]
    · intro hk
      refine ⟨by simp [statusExitCode, hk], by simp [statusExitCode, hk],
        ?_, ?_⟩
      · intro hpro
        simp [statusExitCode, hk, hpro]
      · intro hpro
        exact ⟨by simp [statusExitCode, hk, hpro],
          by simp [statusExitCode, hk, hpro],
          by simp [statusExitCode, hk, hpro]⟩

/-- Witness for C9: concrete instantiations — a caught generation error
exits 1, a successful activation exits 0, a successful deactivation exits
0, and a quota termination during the status usage call exits 1. -/
theorem C9_exit_codes_amended_witness :
    suggestExitCode [{ status := "A", file := "a.ts" }] (.err "boom") = 1 ∧
    activateExitCode (some "KEY") (.ok { licenseKey := none })
      (.ok { productName := "Pro Plan", licStatus := "active",
             renewsAt := none }) (.ok ()) = 0 ∧
    deactivateExitCode (.ok { licenseKey := some "KEY" }) (.ok ()) = 0 ∧
    statusExitCode (.ok { licenseKey := some "KEY" })
      (.ok { productName := "Basic Plan", licStatus := "active",
             renewsAt := none }) .quotaExit = 1 := by
  refine ⟨(C9_exit_codes_amended.2.1 [{ status := "A", file := "a.ts" }]
      "boom" (by simp)).2.1, ?_, ?_, ?_⟩
  · exact (C9_exit_codes_amended.2.2.1 "KEY" "m" { licenseKey := none }
      { productName := "Pro Plan", licStatus := "active", renewsAt := none }
      (.ok { licenseKey := none })
      (.ok { productName := "Pro Plan", licStatus := "active",
             renewsAt := none })
      (.ok ())).2.2.2.2.2.2.2
  · exact ((C9_exit_codes_amended.2.2.2.1 { licenseKey := some "KEY" } "KEY"
      (.ok ())).2.2 rfl).2
  · exact (((C9_exit_codes_amended.2.2.2.2 { licenseKey := some "KEY" } "KEY"
      "m" { productName := "Basic Plan", licStatus := "active",
            renewsAt := none }
      (.ok { productName := "Basic Plan", licStatus := "active",
             renewsAt := none })
      .quotaExit
      { currentUsage := 0, limit := 10, nextResetDate := "d" }).2.2
      rfl).2.2.2 (by decide)).2.2

/-! ## Claim C10: the debug-payload side effect of src/index.js -/

/-- Claim C10: every run of the `src/index.js` generation command that
reaches the network first writes the fully assembled payload (repo name and
complete file changes) to `debug-payload.json` in the working directory,
then posts the same payload. -/
theorem C10_debug_payload (diff : String → Option (String × String))
    (remoteUrl : Option String) (stdout : String)
    (hne : getStagedFiles stdout ≠ []) :
    ∃ p : Payload,
      idxSuggestTrace diff remoteUrl stdout =
        [.writeFile "debug-payload.json" p, .httpPost IDX_API_URL p] ∧
      p.repoName = getRepoInfo remoteUrl ∧
      p.fileChanges = idxFileChanges diff (getStagedFiles stdout) := by
  have hemp : (getStagedFiles stdout).isEmpty = false := by
    cases hg : getStagedFiles stdout with
    | nil => exact absurd hg hne
    | cons a t => rfl
  refine ⟨{ repoName := getRepoInfo remoteUrl
            fileChanges := idxFileChanges diff (getStagedFiles stdout) },
    ?_, rfl, rfl⟩
  simp [idxSuggestTrace, hemp]

/-- Witness for C10: one staged added file and a configured remote. -/
theorem C10_debug_payload_witness :
    ∃ p : Payload,
      idxSuggestTrace (fun _ => some ("", "body"))
        (some "https://github.com/acme/widgets.git") "A\tsrc/app.ts" =
        [.writeFile "debug-payload.json" p, .httpPost IDX_API_URL p] ∧
      p.repoName = getRepoInfo (some "https://github.com/acme/widgets.git") ∧
      p.fileChanges = idxFileChanges (fun _ => some ("", "body"))
        (getStagedFiles "A\tsrc/app.ts") :=
  C10_debug_payload (fun _ => some ("", "body"))
    (some "https://github.com/acme/widgets.git") "A\tsrc/app.ts" (by decide)

/-! ## Claim C2: config-path resolution -/

/-- Claim C2 (code bug): because the source imports `fs` from
`fs/promises`, `fs.existsSync` is undefined; both existence probes throw,
the empty catch swallows the error, and `getConfigPath` returns the
platform default path even when the project-local credentials file exists.
With a module that does provide `existsSync`, the written precedence would
return the local path, which is what the spec states. -/
theorem C2_getConfigPath_code_bug (env : NodeEnv) (fsExists : String → Bool)
    (hlocal : fsExists (localConfigPath env) = true) :
    getConfigPath fsPromisesExistsSync env =
      pathJoin (systemConfigDir env) "credentials.json" ∧
    getConfigPath (some fsExists) env = localConfigPath env := by
  constructor
  · rfl
  · simp [getConfigPath, checkExistsSwallow, hlocal]

/-- Witness for C2: on a Linux machine with a project-local credentials
file present, the code yields the platform default path while the intended
check yields the local path, and the two differ. -/
theorem C2_getConfigPath_code_bug_witness :
    getConfigPath fsPromisesExistsSync
      { cwd := "/work/project", homedir := "/home/user", platform := "linux",
        appdata := none } =
      "/home/user/.local/share/gitset/credentials.json" ∧
    getConfigPath
      (some fun p => p = "/work/project/.gitset/credentials.json")
      { cwd := "/work/project", homedir := "/home/user", platform := "linux",
        appdata := none } =
      "/work/project/.gitset/credentials.json" ∧
    ("/home/user/.local/share/gitset/credentials.json" : String) ≠
      "/work/project/.gitset/credentials.json" := by
  have h := C2_getConfigPath_code_bug
    { cwd := "/work/project", homedir := "/home/user", platform := "linux",
      appdata := none }
    (fun p => p = "/work/project/.gitset/credentials.json") (by decide)
  refine ⟨?_, ?_, by decide⟩
  · rw [h.1]; decide
  · rw [h.2]; decide

/-! ## Claim C7: repository identity normalisation

Supporting lemmas about the JavaScript first-occurrence `replace`. -/

/-- A list starts with itself followed by anything. -/
theorem listStartsWith_append (pat r : List Char) :
    listStartsWith (pat ++ r) pat = true := by
  induction pat with
  | nil => cases r with | nil => rfl | cons c t => rfl
  | cons a as ih => simp [listStartsWith, ih]

/-- Replacing at a match sitting at the front substitutes there. -/
theorem replaceFirst_strip (pat repl r : List Char) (hp : pat ≠ []) :
    replaceFirstList pat repl (pat ++ r) = repl ++ r := by
  cases pat with
  | nil => exact absurd rfl hp
  | cons a as =>
    rw [List.cons_append]
    unfold replaceFirstList
    rw [if_pos (by rw [← List.cons_append]; exact listStartsWith_append (a :: as) r)]
    rw [← List.cons_append, List.drop_left]

/-- When the pattern occurs nowhere in the subject, `replace` is the
identity. -/
theorem replaceFirst_of_not_substr (pat repl s : List Char)
    (h : hasSubstr pat s = false) : replaceFirstList pat repl s = s := by
  induction s with
  | nil =>
    unfold hasSubstr at h
    unfold replaceFirstList
    rw [if_neg]
    intro hpat
    rw [hpat] at h
    exact absurd h (by decide)
  | cons c rest ih =>
    unfold hasSubstr at h
    rcases Bool.or_eq_false_iff.mp h with ⟨h1, h2⟩
    unfold replaceFirstList
    rw [if_neg (by simp [h1]), ih h2]

/-- Stripping a dot-initial suffix from a subject whose stem contains no
dot removes exactly that suffix: the first occurrence of the pattern is
the appended one, since any earlier match would have to start at a dot. -/
theorem replaceFirst_dot_suffix (tl xs : List Char)
    (h : ∀ c ∈ xs, c ≠ '.') :
    replaceFirstList ('.' :: tl) [] (xs ++ '.' :: tl) = xs := by
  induction xs with
  | nil =>
    rw [List.nil_append]
    have hs := replaceFirst_strip ('.' :: tl) [] [] (by simp)
    simpa using hs
  | cons c xs2 ih =>
    have hc : ¬ c = '.' := h c (List.mem_cons_self c xs2)
    rw [List.cons_append]
    unfold replaceFirstList
    rw [if_neg (by simp [listStartsWith, hc])]
    rw [ih fun d hd => h d (List.mem_cons_of_mem c hd)]

/-- Dropping a trailing run of `p`-characters is the identity when the last
character is not a `p`-character. -/
theorem dropTrail_id (p : Char → Bool) (l : List Char)
    (hl : ∀ c, l.getLast? = some c → p c = false) : dropTrail p l = l := by
  unfold dropTrail
  cases hr : l.reverse with
  | nil =>
    have hnil : l = [] := by simpa using congrArg List.reverse hr
    simp [hnil]
  | cons d r2 =>
    have hd : l.getLast? = some d := by
      rw [← List.head?_reverse, hr]
      rfl
    have h2 : List.dropWhile p (d :: r2) = d :: r2 := by
      rw [List.dropWhile_cons, if_neg (by simp [hl d hd])]
    calc (List.dropWhile p (d :: r2)).reverse
        = (d :: r2).reverse := by rw [h2]
      _ = l.reverse.reverse := by rw [hr]
      _ = l := List.reverse_reverse l

/-- JavaScript `trim` is the identity on a string whose first and last
characters are not whitespace. -/
theorem trimList_id (l : List Char)
    (hh : ∀ c, l.head? = some c → isJsSpace c = false)
    (hl : ∀ c, l.getLast? = some c → isJsSpace c = false) :
    trimList l = l := by
  unfold trimList
  have h1 : l.dropWhile isJsSpace = l := by
    cases l with
    | nil => rfl
    | cons c t => rw [List.dropWhile_cons, if_neg (by simp [hh c rfl])]
  rw [h1]
  exact dropTrail_id _ _ hl

/-- Appending two strings concatenates their character data. -/
theorem strData_append (a b : String) : (a ++ b).data = a.data ++ b.data := rfl

/-- Character data of the path-separator literal. -/
theorem strData_slash : "/".data = ['/'] := rfl

/-- JavaScript `trim` is the identity on a string whose first and last
characters are not whitespace. -/
theorem trimList_append_id (c : Char) (mid : List Char) (x : Char)
    (hc : isJsSpace c = false) (hx : isJsSpace x = false) :
    trimList (c :: (mid ++ [x])) = c :: (mid ++ [x]) := by
  unfold trimList
  rw [List.dropWhile_cons, if_neg (by simp [hc])]
  apply dropTrail_id
  intro d hd
  rw [show c :: (mid ++ [x]) = (c :: mid) ++ [x] from by simp,
    List.getLast?_concat] at hd
  injection hd with h
  rw [← h]
  exact hx

/-- Claim C7 counterexample: the third `replace` removes the first
occurrence of `.git` anywhere, not the trailing suffix, so a repository
named `foo.github.io` is mangled instead of having its `.git` suffix
stripped. -/
theorem C7_repo_identity_counterexample :
    getRepoInfo (some "https://github.com/acme/foo.github.io.git") =
      "acme/foohub.io.git" ∧
    ("acme/foohub.io.git" : String) ≠ "acme/foo.github.io" := by
  constructor
  · decide
  · decide

/-- Claim C7 (amended): with no remote the result is empty; the two spec
examples normalise to `acme/widgets`; and in general, when the owner and
repository segments contain no dot (and do not embed the other scheme
prefix), both the SSH and the HTTPS remote forms normalise to
`owner/repo` — the code removes the first occurrence of each pattern, not
specifically the trailing `.git` suffix. -/
theorem C7_repo_identity_amended :
    getRepoInfo none = "" ∧
    getRepoInfo (some "git@github.com:acme/widgets.git") = "acme/widgets" ∧
    getRepoInfo (some "https://github.com/acme/widgets.git") = "acme/widgets" ∧
    (∀ own rep : String,
      (∀ c ∈ own.data ++ ('/' :: rep.data), c ≠ '.') →
      hasSubstr "https://github.com/".data
        (own.data ++ ('/' :: (rep.data ++ ".git".data))) = false →
      getRepoInfo (some ("git@github.com:" ++ own ++ "/" ++ rep ++ ".git")) =
        own ++ "/" ++ rep) ∧
    (∀ own rep : String,
      (∀ c ∈ own.data ++ ('/' :: rep.data), c ≠ '.') →
      hasSubstr "git@github.com:".data
        ("https://github.com/".data ++
          (own.data ++ ('/' :: (rep.data ++ ".git".data)))) = false →
      getRepoInfo (some ("https://github.com/" ++ own ++ "/" ++ rep ++ ".git")) =
        own ++ "/" ++ rep) := by
  refine ⟨rfl, by decide, by decide, ?_, ?_⟩
  · intro own rep hdot hA
    have hg : "git@github.com:".data = 'g' :: "it@github.com:".data := rfl
    have hdg : ".git".data = '.' :: "git".data := rfl
    have hdg2 : ".git".data = ['.', 'g', 'i'] ++ ['t'] := rfl
    have e1 : ("git@github.com:" ++ own ++ "/" ++ rep ++ ".git").data
        = "git@github.com:".data ++
          (own.data ++ ('/' :: (rep.data ++ ".git".data))) := by
      simp [strData_append, strData_slash]
    have hshape : ("git@github.com:" ++ own ++ "/" ++ rep ++ ".git").data
        = 'g' :: (("it@github.com:".data ++
            (own.data ++ ('/' :: (rep.data ++ ['.', 'g', 'i'])))) ++ ['t']) := by
      rw [e1, hg, hdg2]
      simp
    have htrim : trimList ("git@github.com:" ++ own ++ "/" ++ rep ++ ".git").data
        = ("git@github.com:" ++ own ++ "/" ++ rep ++ ".git").data := by
      rw [hshape]
      exact trimList_append_id 'g' _ 't' (by decide) (by decide)
    apply String.ext
    have key :
        (getRepoInfo (some ("git@github.com:" ++ own ++ "/" ++ rep ++ ".git"))).data
        = replaceFirstList ".git".data []
            (replaceFirstList "https://github.com/".data []
              (replaceFirstList "git@github.com:".data []
                (trimList
                  ("git@github.com:" ++ own ++ "/" ++ rep ++ ".git").data))) := rfl
    rw [key, htrim, e1]
    rw [replaceFirst_strip "git@github.com:".data [] _ (by decide)]
    rw [List.nil_append]
    rw [replaceFirst_of_not_substr "https://github.com/".data [] _ hA]
    rw [hdg]
    have hw : own.data ++ ('/' :: (rep.data ++ ('.' :: "git".data)))
        = (own.data ++ ('/' :: rep.data)) ++ ('.' :: "git".data) := by
      simp
    rw [hw]
    rw [replaceFirst_dot_suffix "git".data _ hdot]
    simp [strData_append, strData_slash]
  · intro own rep hdot hB
    have hh : "https://github.com/".data = 'h' :: "ttps://github.com/".data := rfl
    have hdg : ".git".data = '.' :: "git".data := rfl
    have hdg2 : ".git".data = ['.', 'g', 'i'] ++ ['t'] := rfl
    have e2 : ("https://github.com/" ++ own ++ "/" ++ rep ++ ".git").data
        = "https://github.com/".data ++
          (own.data ++ ('/' :: (rep.data ++ ".git".data))) := by
      simp [strData_append, strData_slash]
    have hshape : ("https://github.com/" ++ own ++ "/" ++ rep ++ ".git").data
        = 'h' :: (("ttps://github.com/".data ++
            (own.data ++ ('/' :: (rep.data ++ ['.', 'g', 'i'])))) ++ ['t']) := by
      rw [e2, hh, hdg2]
      simp
    have htrim : trimList ("https://github.com/" ++ own ++ "/" ++ rep ++ ".git").data
        = ("https://github.com/" ++ own ++ "/" ++ rep ++ ".git").data := by
      rw [hshape]
      exact trimList_append_id 'h' _ 't' (by decide) (by decide)
    apply String.ext
    have key :
        (getRepoInfo (some ("https://github.com/" ++ own ++ "/" ++ rep ++ ".git"))).data
        = replaceFirstList ".git".data []
            (replaceFirstList "https://github.com/".data []
              (replaceFirstList "git@github.com:".data []
                (trimList
                  ("https://github.com/" ++ own ++ "/" ++ rep ++ ".git").data))) := rfl
    rw [key, htrim, e2]
    rw [replaceFirst_of_not_substr "git@github.com:".data [] _ hB]
    rw [replaceFirst_strip "https://github.com/".data [] _ (by decide)]
    rw [List.nil_append]
    rw [hdg]
    have hw : own.data ++ ('/' :: (rep.data ++ ('.' :: "git".data)))
        = (own.data ++ ('/' :: rep.data)) ++ ('.' :: "git".data) := by
      simp
    rw [hw]
    rw [replaceFirst_dot_suffix "git".data _ hdot]
    simp [strData_append, strData_slash]

/-- Witness for C7: the general normalisation applied to the dot-free
owner/repository pair of the spec example. -/
theorem C7_repo_identity_amended_witness :
    getRepoInfo (some ("git@github.com:" ++ "acme" ++ "/" ++ "widgets" ++ ".git")) =
      "acme" ++ "/" ++ "widgets" :=
  C7_repo_identity_amended.2.2.2.1 "acme" "widgets" (by decide) (by decide)

end Gitset
